import Mathlib

/-!
# Verification of the LearningTrackerPro optimizer service

A shallow embedding, in Lean 4, of the Python sources of the
LearningTrackerPro-2 repository (`main.py`, `file_parser.py`,
`openai_insights.py`), together with a model — built from the design
document — of the optimizer modules (`optimizer`, `quantum_optimizer`)
that the Flask routes call but whose sources are not part of the
snapshot.

Conventions:
* JSON-ish Python values are the inductive type `Value`.  Python's
  `bool` is a subclass of `int`, so `isinstance(x, (int, float))`
  accepts booleans; `pyIsNumber`/`pyNumVal` reproduce that.
* Python numbers (int and float alike) are modelled as rationals.
* Functions that can raise return `Except PyErr _`; a `try/except`
  block becomes a `match` on that result.
* External library calls (pandas, the `re` module, UTF-8 decoding)
  are taken as function parameters, so theorems about the surrounding
  code quantify over every possible behaviour of the library.
-/

/-- Python exception values, only distinguished as far as the embedded
code distinguishes them. -/
inductive PyErr where
  | importError
  | valueError (msg : String)
  | indexError
  | typeError
  | unicodeError
  | other (msg : String)
deriving Repr, DecidableEq

/-- The message `str(e)` used when formatting a caught exception. -/
def pyErrMsg : PyErr → String
  | .importError => "No module named pandas"
  | .valueError m => m
  | .indexError => "list index out of range"
  | .typeError => "type error"
  | .unicodeError => "invalid utf-8"
  | .other m => m

/-- JSON-like Python values as delivered by `request.json` and built by
the parsing helpers.  Booleans are kept apart from numbers because
Python's `bool` is a distinct (sub)type with its own truthiness. -/
inductive Value where
  | vnull
  | vbool (b : Bool)
  | vnum (q : ℚ)
  | vstr (s : String)
  | vlist (xs : List Value)
  | vobj (kvs : List (String × Value))

/-- First-match association lookup, modelling Python dict subscripting
(dict keys are unique, so first match is the match). -/
def lookupKey : List (String × Value) → String → Option Value
  | [], _ => none
  | (k, v) :: rest, key => if k = key then some v else lookupKey rest key

/-- `key in d` for an object, `False` for any non-dict value (where the
source would instead fail with `TypeError` and the enclosing
`except` returns the same verdict). -/
def hasKey (v : Value) (k : String) : Bool :=
  match v with
  | .vobj kvs => (lookupKey kvs k).isSome
  | _ => false

/-- `isinstance(x, (int, float))`: true for numbers and, because
`bool` is a subclass of `int`, for booleans. -/
def pyIsNumber : Value → Bool
  | .vnum _ => true
  | .vbool _ => true
  | _ => false

/-- Numeric value of a Python number; `True == 1`, `False == 0`. -/
def pyNumVal : Value → ℚ
  | .vnum q => q
  | .vbool b => if b then 1 else 0
  | _ => 0

/-- Python truthiness of a JSON-ish value. -/
def pyTruthy : Value → Bool
  | .vnull => false
  | .vbool b => b
  | .vnum q => q ≠ 0
  | .vstr s => s ≠ ""
  | .vlist xs => !xs.isEmpty
  | .vobj kvs => !kvs.isEmpty

/-- `isinstance(v, (int, float)) and v > 0`, the positive-number check
used by `_validate_input` (the source tests the negation and
returns `False`). -/
def numPos (v : Value) : Bool :=
  pyIsNumber v && decide (0 < pyNumVal v)

/-- `main.py::_validate_input`, developer loop body (lines 187-196):
every developer must carry the four keys and have positive numeric
`rate` and `hours_per_day`.  A non-dict entry makes the source raise
`TypeError` at subscripting, caught by the function's `except`, which
returns `False`; hence the `false` in the catch-all branch. -/
def devOk (dev : Value) : Bool :=
  match dev with
  | .vobj kvs =>
      (["name", "rate", "hours_per_day", "skills"].all fun k => (lookupKey kvs k).isSome) &&
      numPos ((lookupKey kvs "rate").getD .vnull) &&
      numPos ((lookupKey kvs "hours_per_day").getD .vnull)
  | _ => false

/-- `main.py::_validate_input`, project loop body (lines 203-212):
every project must carry `name`, `hours`, `priority`, with `hours`
a positive number and `priority` a number between 1 and 5. -/
def projOk (proj : Value) : Bool :=
  match proj with
  | .vobj kvs =>
      (["name", "hours", "priority"].all fun k => (lookupKey kvs k).isSome) &&
      numPos ((lookupKey kvs "hours").getD .vnull) &&
      (let pr := (lookupKey kvs "priority").getD .vnull
       pyIsNumber pr && decide (1 ≤ pyNumVal pr) && decide (pyNumVal pr ≤ 5))
  | _ => false

/-- `main.py::_validate_input` (lines 163-218).  The top-level value
must be a dict (a non-dict makes `field not in data` or the
subscripts raise, and the `except` returns `False`), carry the four
required fields, have positive numeric budget and deadline, and have
non-empty developer and project lists whose members pass the loops. -/
def validate_input (data : Value) : Bool :=
  match data with
  | .vobj kvs =>
      (["budget", "deadline", "developers", "projects"].all fun k =>
        (lookupKey kvs k).isSome) &&
      numPos ((lookupKey kvs "budget").getD .vnull) &&
      numPos ((lookupKey kvs "deadline").getD .vnull) &&
      (match lookupKey kvs "developers" with
       | some (.vlist devs) => !devs.isEmpty && devs.all devOk
       | _ => false) &&
      (match lookupKey kvs "projects" with
       | some (.vlist projs) => !projs.isEmpty && projs.all projOk
       | _ => false)
  | _ => false

/-! ## String primitives

Self-contained (kernel-reducible) models of the Python string
operations the sources use: `str.lower`, `str.strip`, `str.split`,
`str.startswith`, `str.endswith`, `float(...)`, `int(...)`.  ASCII
case-folding suffices for the inputs these claims touch. -/

/-- ASCII lower-casing of one character (`str.lower`). -/
def charLower (c : Char) : Char :=
  if 'A' ≤ c ∧ c ≤ 'Z' then Char.ofNat (c.toNat + 32) else c

/-- `s.lower()` (ASCII). -/
def pyLower (s : String) : String :=
  String.mk (s.data.map charLower)

/-- Does `pat` occur at the front of `l`? -/
def listMatchesFront : List Char → List Char → Bool
  | [], _ => true
  | _ :: _, [] => false
  | p :: ps, c :: cs => p = c && listMatchesFront ps cs

/-- `s.endswith(suffix)`. -/
def strEnds (s suffix : String) : Bool :=
  listMatchesFront suffix.data.reverse s.data.reverse

/-- `s.startswith(t)`. -/
def strBegins (s t : String) : Bool :=
  listMatchesFront t.data s.data

/-- The characters `str.strip()` removes. -/
def isPySpace (c : Char) : Bool :=
  c = ' ' || c = '\t' || c = '\n' || c = '\x0d' || c = '\x0b' || c = '\x0c'

/-- `s.strip()`. -/
def pyStrip (s : String) : String :=
  String.mk (((s.data.dropWhile isPySpace).reverse.dropWhile isPySpace).reverse)

/-- Split a character list at every occurrence of `c`
(`str.split(c)` semantics: `"" ↦ [""]`, separators kept none). -/
def splitOnChar (c : Char) : List Char → List (List Char)
  | [] => [[]]
  | x :: xs =>
      let r := splitOnChar c xs
      if x = c then [] :: r
      else
        match r with
        | [] => [[x]]
        | g :: gs => (x :: g) :: gs

/-- `[s.strip() for s in cell.split(',') if s.strip()]`, the
comma-splitting used for skill and dependency cells. -/
def splitCommaTrim (cell : String) : List String :=
  ((splitOnChar ',' cell.data).map (fun cs => pyStrip (String.mk cs))).filter (· ≠ "")

/-- `csv.reader` on quote-free content: rows are newline-separated,
cells comma-separated, a trailing newline yields no extra row and an
empty line yields an empty row. -/
def csvSplit (s : String) : List (List String) :=
  let lines := splitOnChar '\n' s.data
  let lines := match lines.getLast? with
    | some [] => lines.dropLast
    | _ => lines
  lines.map fun line =>
    if line.isEmpty then [] else (splitOnChar ',' line).map (fun cs => String.mk cs)

/-- Numeric value of a digit run, `none` if empty or non-digit. -/
def digitsToNat : List Char → Option Nat
  | cs =>
    if cs ≠ [] ∧ cs.all Char.isDigit then
      some (cs.foldl (fun acc c => acc * 10 + (c.toNat - 48)) 0)
    else none

/-- `float(s)` on plain decimal literals (optional sign, digits,
at most one point); anything else raises `ValueError`, as in Python. -/
def pyFloat (s : String) : Except PyErr ℚ :=
  let (neg, cs) :=
    match s.data with
    | '-' :: rest => (true, rest)
    | '+' :: rest => (false, rest)
    | cs => (false, cs)
  let fail : Except PyErr ℚ :=
    .error (.valueError ("could not convert string to float: " ++ s))
  match splitOnChar '.' cs with
  | [ip] =>
      match digitsToNat ip with
      | some n => .ok (if neg then -(n : ℚ) else (n : ℚ))
      | none => fail
  | [ip, fp] =>
      if (ip ≠ [] ∨ fp ≠ []) ∧ ip.all Char.isDigit ∧ fp.all Char.isDigit then
        let iv : ℚ := (ip.foldl (fun acc c => acc * 10 + (c.toNat - 48)) 0 : Nat)
        let fv : ℚ := (fp.foldl (fun acc c => acc * 10 + (c.toNat - 48)) 0 : Nat)
        let v := iv + fv / ((10 : ℚ) ^ fp.length)
        .ok (if neg then -v else v)
      else fail
  | _ => fail

/-- `int(s)` on plain integer literals (optional sign, digits only). -/
def pyIntQ (s : String) : Except PyErr ℚ :=
  let (neg, cs) :=
    match s.data with
    | '-' :: rest => (true, rest)
    | '+' :: rest => (false, rest)
    | cs => (false, cs)
  match digitsToNat cs with
  | some n => .ok (if neg then -(n : ℚ) else (n : ℚ))
  | none => .error (.valueError ("invalid literal for int: " ++ s))

/-! ## `file_parser.py` -/

/-- Loop body of `file_parser._extract_metadata`: walk the rows,
updating `budget`/`deadline` whenever a row of length ≥ 2 starts
with the (lower-cased) word; `float(...)` may raise. -/
def extract_metadata_go : List (List String) → ℚ → ℚ → Except PyErr (ℚ × ℚ)
  | [], b, d => .ok (b, d)
  | row :: rest, b, d =>
    match row with
    | c0 :: c1 :: _ =>
        if pyLower c0 = "budget" then
          match pyFloat c1 with
          | .ok b' => extract_metadata_go rest b' d
          | .error e => .error e
        else if pyLower c0 = "deadline" then
          match pyFloat c1 with
          | .ok d' => extract_metadata_go rest b d'
          | .error e => .error e
        else extract_metadata_go rest b d
    | _ => extract_metadata_go rest b d

/-- `file_parser._extract_metadata` (lines 178-198): only the first
ten rows are examined; both values default to `0.0`. -/
def extract_metadata (rows : List (List String)) : Except PyErr (ℚ × ℚ) :=
  extract_metadata_go (rows.take 10) 0 0

/-- Loop of `file_parser._find_section_indices`; the source records the
index of the *last* matching row, `-1` (here `none`) if absent. -/
def find_sections_go : List (List String) → Nat → Option Nat × Option Nat →
    Option Nat × Option Nat
  | [], _, acc => acc
  | row :: rest, i, (d, p) =>
    let acc :=
      match row with
      | c0 :: _ =>
          if pyLower c0 = "developers" then (some i, p)
          else if pyLower c0 = "projects" then (d, some i)
          else (d, p)
      | [] => (d, p)
    find_sections_go rest (i + 1) acc

/-- `file_parser._find_section_indices` (lines 200-220). -/
def find_section_indices (rows : List (List String)) : Option Nat × Option Nat :=
  find_sections_go rows 0 (none, none)

/-- Insert-or-overwrite, preserving insertion order: Python dict
assignment `d[k] = v`. -/
def dictSet : List (String × Value) → String → Value → List (String × Value)
  | [], k, v => [(k, v)]
  | (k', v') :: rest, k, v =>
      if k' = k then (k, v) :: rest else (k', v') :: dictSet rest k v

/-- Cell loop of `file_parser._extract_developers`: `row` is zipped
with the (already lower-cased) headers, exactly like
`enumerate(row)` guarded by `i < len(headers)`. -/
def build_dev_cells : List (String × String) → List (String × Value) →
    Except PyErr (List (String × Value))
  | [], dev => .ok dev
  | (cell, header) :: rest, dev =>
      if header = "name" then
        build_dev_cells rest (dictSet dev "name" (.vstr cell))
      else if header = "rate" then
        match (if cell ≠ "" then pyFloat cell else .ok 0) with
        | .ok q => build_dev_cells rest (dictSet dev "rate" (.vnum q))
        | .error e => .error e
      else if header = "hours per day" ∨ header = "hours_per_day" then
        match (if cell ≠ "" then pyFloat cell else .ok 0) with
        | .ok q => build_dev_cells rest (dictSet dev "hours_per_day" (.vnum q))
        | .error e => .error e
      else if header = "skills" then
        build_dev_cells rest
          (dictSet dev "skills" (.vlist ((splitCommaTrim cell).map .vstr)))
      else build_dev_cells rest dev

/-- Row loop of `file_parser._extract_developers` (lines 236-256):
stop at an empty row, an empty first cell or the `Projects` header;
keep a built developer only when its `name` entry is truthy. -/
def extract_devs_loop (headers : List String) :
    List (List String) → List Value → Except PyErr (List Value)
  | [], acc => .ok acc
  | row :: rest, acc =>
    match row with
    | [] => .ok acc
    | c0 :: _ =>
        if c0 = "" ∨ pyLower c0 = "projects" then .ok acc
        else
          match build_dev_cells (row.zip headers) [] with
          | .error e => .error e
          | .ok dev =>
              let keep :=
                match lookupKey dev "name" with
                | some v => pyTruthy v
                | none => false
              extract_devs_loop headers rest (if keep then acc ++ [.vobj dev] else acc)

/-- `file_parser._extract_developers` (lines 222-258); reading the
header row out of range raises `IndexError`. -/
def extract_developers (rows : List (List String)) (idx : Nat) :
    Except PyErr (List Value) :=
  match rows.get? (idx + 1) with
  | none => .error .indexError
  | some hrow => extract_devs_loop (hrow.map pyLower) (rows.drop (idx + 2)) []

/-- Cell loop of `file_parser._extract_projects`. -/
def build_proj_cells : List (String × String) → List (String × Value) →
    Except PyErr (List (String × Value))
  | [], proj => .ok proj
  | (cell, header) :: rest, proj =>
      if header = "name" then
        build_proj_cells rest (dictSet proj "name" (.vstr cell))
      else if header = "hours" then
        match (if cell ≠ "" then pyFloat cell else .ok 0) with
        | .ok q => build_proj_cells rest (dictSet proj "hours" (.vnum q))
        | .error e => .error e
      else if header = "priority" then
        match (if cell ≠ "" then pyIntQ cell else .ok 1) with
        | .ok q => build_proj_cells rest (dictSet proj "priority" (.vnum q))
        | .error e => .error e
      else if header = "dependencies" then
        build_proj_cells rest
          (dictSet proj "dependencies" (.vlist ((splitCommaTrim cell).map .vstr)))
      else if header = "required skills" ∨ header = "required_skills" then
        build_proj_cells rest
          (dictSet proj "required_skills" (.vlist ((splitCommaTrim cell).map .vstr)))
      else build_proj_cells rest proj

/-- Row loop of `file_parser._extract_projects` (lines 274-297):
stop at an empty row or empty first cell. -/
def extract_projs_loop (headers : List String) :
    List (List String) → List Value → Except PyErr (List Value)
  | [], acc => .ok acc
  | row :: rest, acc =>
    match row with
    | [] => .ok acc
    | c0 :: _ =>
        if c0 = "" then .ok acc
        else
          match build_proj_cells (row.zip headers) [] with
          | .error e => .error e
          | .ok proj =>
              let keep :=
                match lookupKey proj "name" with
                | some v => pyTruthy v
                | none => false
              extract_projs_loop headers rest (if keep then acc ++ [.vobj proj] else acc)

/-- `file_parser._extract_projects` (lines 260-299). -/
def extract_projects (rows : List (List String)) (idx : Nat) :
    Except PyErr (List Value) :=
  match rows.get? (idx + 1) with
  | none => .error .indexError
  | some hrow => extract_projs_loop (hrow.map pyLower) (rows.drop (idx + 2)) []

/-- The `except` payload of `_parse_csv`. -/
def csvErrDict (e : PyErr) : Value :=
  .vobj [("success", .vbool false),
         ("error", .vstr ("CSV parsing error: " ++ pyErrMsg e))]

/-- The `try` body of `file_parser._parse_csv` (lines 59-90), with its
`except Exception` collapsing any raised error into an error dict. -/
def parse_csv_body (rows : List (List String)) : Value :=
  match extract_metadata rows with
  | .error e => csvErrDict e
  | .ok (b, d) =>
    match find_section_indices rows with
    | (some di, some pi) =>
      match extract_developers rows di with
      | .error e => csvErrDict e
      | .ok devs =>
        match extract_projects rows pi with
        | .error e => csvErrDict e
        | .ok projs =>
            .vobj [("success", .vbool true), ("budget", .vnum b),
                   ("deadline", .vnum d), ("developers", .vlist devs),
                   ("projects", .vlist projs)]
    | _ =>
        .vobj [("success", .vbool false),
               ("error", .vstr "Could not find \x27Developers\x27 or \x27Projects\x27 sections in the CSV file.")]

/-- `file_parser._parse_csv` (lines 43-90).  The UTF-8 decode of line
53 sits *outside* the function's `try`, so a decode failure
propagates to the caller; it is passed in as `decodeFn` since it is
a runtime primitive, not repository code. -/
def parse_csv (decodeFn : List Nat → Except PyErr String)
    (content : List Nat) : Except PyErr Value :=
  match decodeFn content with
  | .error e => .error e
  | .ok s => .ok (parse_csv_body (csvSplit s))

/-- What `_parse_excel` extracts from the workbook when pandas
succeeds, i.e. the values bound in lines 109-157. -/
structure ExcelRaw where
  budget : ℚ
  deadline : ℚ
  developers : List Value
  projects : List Value

/-- `file_parser._parse_excel` (lines 92-176): the pandas interaction
(an external library) is the oracle `excelFn`; an `ImportError`
and any other exception are caught by the function's own handlers,
so it always returns a dict. -/
def parse_excel (excelFn : List Nat → Except PyErr ExcelRaw)
    (content : List Nat) : Value :=
  match excelFn content with
  | .error .importError =>
      .vobj [("success", .vbool false),
             ("error", .vstr "Pandas library is required for Excel parsing but was not found.")]
  | .error e =>
      .vobj [("success", .vbool false),
             ("error", .vstr ("Excel parsing error: " ++ pyErrMsg e))]
  | .ok raw =>
      .vobj [("success", .vbool true), ("budget", .vnum raw.budget),
             ("deadline", .vnum raw.deadline),
             ("developers", .vlist raw.developers),
             ("projects", .vlist raw.projects)]

/-- `file_parser.parse_uploaded_file` (lines 11-41): dispatch on the
lower-cased filename suffix; the outer `try/except` turns any
escaped exception (in practice only the CSV decode) into an error
dict carrying the message and a traceback string. -/
def parse_uploaded_file (excelFn : List Nat → Except PyErr ExcelRaw)
    (decodeFn : List Nat → Except PyErr String)
    (content : List Nat) (filename : String) : Value :=
  if strEnds (pyLower filename) ".xlsx" || strEnds (pyLower filename) ".xls" then
    parse_excel excelFn content
  else if strEnds (pyLower filename) ".csv" then
    match parse_csv decodeFn content with
    | .ok v => v
    | .error e =>
        .vobj [("success", .vbool false),
               ("error", .vstr ("Error parsing file: " ++ pyErrMsg e)),
               ("details", .vstr (pyErrMsg e))]
  else
    .vobj [("success", .vbool false),
           ("error", .vstr "Unsupported file format. Please upload a CSV or Excel file.")]

/-- Byte encoding of an ASCII string, for concrete test inputs. -/
def asciiBytes (s : String) : List Nat :=
  s.data.map Char.toNat

/-- A concrete UTF-8 decoder valid on ASCII content (all the concrete
inputs used below are ASCII); non-ASCII bytes raise, standing in for
the full decoder only where no test input reaches. -/
def asciiDecode (bs : List Nat) : Except PyErr String :=
  if bs.all (· < 128) then .ok (String.mk (bs.map Char.ofNat))
  else .error .unicodeError

/-! ## `openai_insights.py::OpenAIInsightsGenerator._parse_response` -/

/-- Fuel-driven split of a character list at every occurrence of a
(non-empty) separator, `str.split(sep)` semantics. -/
def splitOnListAux : Nat → List Char → List Char → List Char → List (List Char)
  | 0, _, cur, cs => [cur.reverse ++ cs]
  | fuel + 1, sep, cur, cs =>
    match cs with
    | [] => [cur.reverse]
    | c :: rest =>
        if listMatchesFront sep cs then
          cur.reverse :: splitOnListAux fuel sep [] (cs.drop sep.length)
        else
          splitOnListAux fuel sep (c :: cur) rest

/-- `s.split(sep)` for a non-empty separator string. -/
def strSplitOnFull (sep s : String) : List String :=
  (splitOnListAux (s.data.length + 1) sep.data [] s.data).map String.mk

/-- The fallback recommendation of `_parse_response` line 269. -/
def defaultRecommendation : String :=
  "Consider adjusting resource allocation to optimize efficiency."

/-- The `try` body of `_parse_response` (lines 241-274).  The two `re`
calls are external-library oracles (`reSplitF` for
`re.split(..., recommendations_text)`, `reFindF` for
`re.findall(..., response)`), allowed to return anything or raise. -/
def parse_response_body (reSplitF reFindF : String → Except PyErr (List String))
    (response : String) : Except PyErr Value :=
  let parts := strSplitOnFull "Recommendations:" response
  if 1 < parts.length then
    match reSplitF (pyStrip (parts.getD 1 "")) with
    | .error e => .error e
    | .ok items =>
        let recs := (items.filter (fun it => pyStrip it ≠ "")).map pyStrip
        let recs := if recs.isEmpty then [defaultRecommendation] else recs
        .ok (.vobj [("explanation", .vstr (pyStrip (parts.getD 0 ""))),
                    ("recommendations", .vlist (recs.map .vstr))])
  else
    match reFindF response with
    | .error e => .error e
    | .ok ms =>
        let recs := if ms.isEmpty then [] else ms.map pyStrip
        let recs := if recs.isEmpty then [defaultRecommendation] else recs
        .ok (.vobj [("explanation", .vstr (pyStrip response)),
                    ("recommendations", .vlist (recs.map .vstr))])

/-- `OpenAIInsightsGenerator._parse_response` (lines 231-285): any
exception in the body is caught and replaced by the fixed fallback
explanation and three fallback recommendations. -/
def parse_response (reSplitF reFindF : String → Except PyErr (List String))
    (response : String) : Value :=
  match parse_response_body reSplitF reFindF response with
  | .ok v => v
  | .error _ =>
      .vobj [("explanation",
              .vstr "AI analysis unavailable. The optimization shows a balanced approach to resource allocation."),
             ("recommendations",
              .vlist [.vstr "Consider reviewing the highest-cost assignments for possible adjustments.",
                      .vstr "Monitor projects with tight deadlines closely.",
                      .vstr "Ensure developers have appropriate skills for their assigned projects."])]

/-! ## The optimizer core

`main.py` imports `optimizer`, `quantum_optimizer` and `ai_insights`,
but those modules are not part of the source snapshot; the definitions
below are therefore modelled from the design document (sections 3,
4.1-4.6 and 7), and theorems that depend on them say so. -/

/-- Modelled from the spec (section 3): a validated developer record as
consumed by the missing optimizer modules. -/
structure Developer where
  name : String
  rate : ℚ
  hours_per_day : ℚ
  skills : List String
deriving DecidableEq, Repr

/-- Modelled from the spec (section 3): a validated project record. -/
structure Project where
  name : String
  hours : ℚ
  priority : ℚ
  dependencies : List String
  required_skills : List String
deriving DecidableEq, Repr

/-- Modelled from the spec (section 3): one developer-to-project
assignment. -/
structure Assignment where
  developer : String
  project : String
  hours : ℚ
  cost : ℚ
  skill_match : ℚ
deriving DecidableEq, Repr

/-- Risk severity tiers. -/
inductive Severity where
  | high
  | medium
  | low
deriving DecidableEq, Repr

/-- A risk finding. -/
structure Risk where
  severity : Severity
  message : String
deriving DecidableEq, Repr

/-- Modelled from the spec (section 3): the assembled result. -/
structure OptimizationResult where
  assignments : List Assignment
  total_cost : ℚ
  budget_remaining : ℚ
  completion_time : ℚ
  time_buffer : ℚ
  risks : List Risk
  quantum_powered : Bool
deriving DecidableEq, Repr

/-- Modelled from the spec (section 7): the fatal graph errors. -/
inductive OptError where
  | unknownDependency
  | cyclicDependency
deriving DecidableEq, Repr

/-- Typed input to the optimizer core. -/
structure OptInput where
  budget : ℚ
  deadline : ℚ
  developers : List Developer
  projects : List Project
deriving DecidableEq, Repr

/-- Modelled from the spec (section 4.1 SkillMatcher): 1 when no skill
is required, else covered fraction of the required set. -/
def skillMatch (devSkills required : List String) : ℚ :=
  let req := required.dedup
  if req.isEmpty then 1
  else ((req.filter (fun s => devSkills.contains s)).length : ℚ) / (req.length : ℚ)

/-- Modelled from the spec (section 4.3, deterministic strategy):
the developer maximising skill match, ties broken by lower rate,
then by input order (first wins). -/
def pickDev (devs : List Developer) (p : Project) : Option Developer :=
  devs.foldl
    (fun best d =>
      match best with
      | none => some d
      | some b =>
          let md := skillMatch d.skills p.required_skills
          let mb := skillMatch b.skills p.required_skills
          if mb < md ∨ (md = mb ∧ d.rate < b.rate) then some d else some b)
    none

/-- Names of the supplied projects. -/
def projNames (projs : List Project) : List String :=
  projs.map (·.name)

/-- The dependency edge: `a → b` when project `b` lists `a` among its
dependencies (spec section 3: edges run dependency → dependent). -/
def depEdge (projs : List Project) (a b : String) : Prop :=
  ∃ p ∈ projs, p.name = b ∧ a ∈ p.dependencies

/-- The dependency graph contains a cycle: some name reaches itself
through a non-empty chain of edges. -/
def hasCycle (projs : List Project) : Prop :=
  ∃ x, Relation.TransGen (depEdge projs) x x

/-- A project is ready once every dependency is already processed. -/
def eligibleProj (done : List String) (p : Project) : Bool :=
  p.dependencies.all (fun d => done.contains d)

/-- Modelled from the spec (section 4.2): among ready projects prefer
higher priority, then earlier input position (first wins). -/
def pickBest (elig : List Project) : Option Project :=
  elig.foldl
    (fun best p =>
      match best with
      | none => some p
      | some b => if b.priority < p.priority then some p else some b)
    none

/-- Modelled from the spec (section 4.2): topological ordering in the
style the spec prescribes (repeatedly emit a ready project); when no
project is ready but some remain, the graph is cyclic.  Fuel is the
number of projects, enough since each round removes one. -/
def topoAux : Nat → List Project → List String → Except OptError (List Project)
  | 0, rem, _ => if rem.isEmpty then .ok [] else .error .cyclicDependency
  | fuel + 1, rem, done =>
    if rem.isEmpty then .ok []
    else
      match pickBest (rem.filter (eligibleProj done)) with
      | none => .error .cyclicDependency
      | some p =>
          match topoAux fuel (rem.erase p) (p.name :: done) with
          | .ok rest => .ok (p :: rest)
          | .error e => .error e

/-- Modelled from the spec (section 4.2 DependencyGraph): reject an
unknown dependency name first, then order the projects, detecting
cycles. -/
def buildOrder (projs : List Project) : Except OptError (List Project) :=
  if projs.any (fun p => p.dependencies.any (fun d => !(projNames projs).contains d)) then
    .error .unknownDependency
  else topoAux projs.length projs []

/-- Association lookup over string-keyed rationals. -/
def lookupQ : List (String × ℚ) → String → Option ℚ
  | [], _ => none
  | (k, v) :: rest, key => if k = key then some v else lookupQ rest key

/-- Association lookup over string pairs. -/
def lookupStr : List (String × String) → String → Option String
  | [], _ => none
  | (k, v) :: rest, key => if k = key then some v else lookupStr rest key

/-- Maximum of a list of rationals, 0 when empty. -/
def maxOf (l : List ℚ) : ℚ :=
  l.foldl max 0

/-- Modelled from the spec (section 4.4 ScheduleEvaluator): walk the
topological order keeping per-project finish times and per-developer
availability; a project starts at the max of its dependencies'
finishes and its developer's availability and runs for
`hours / hours_per_day` days. -/
def schedFold (pick : Project → Option Developer) :
    List Project → List (String × ℚ) → List (String × ℚ) → List (String × ℚ)
  | [], finish, _ => finish
  | p :: rest, finish, avail =>
    let depMax := maxOf (p.dependencies.map (fun n => (lookupQ finish n).getD 0))
    match pick p with
    | none => schedFold pick rest (finish ++ [(p.name, depMax)]) avail
    | some d =>
        let start := max depMax ((lookupQ avail d.name).getD 0)
        let fin := start + p.hours / d.hours_per_day
        schedFold pick rest (finish ++ [(p.name, fin)]) ((d.name, fin) :: avail)

/-- Modelled from the spec (section 4.5 RiskAssessor, section 4.1):
required skills no supplied developer has. -/
def uncoveredSkills (inp : OptInput) : List String :=
  ((inp.projects.map (·.required_skills)).flatten.dedup).filter
    (fun s => inp.developers.all (fun d => !d.skills.contains s))

/-- Modelled from the spec (section 4.5 RiskAssessor): the rule table,
emitted high tier first, then medium, each tier in table-then-input
order, so the list is sorted by severity by construction. -/
def risksFor (inp : OptInput) (assignments : List Assignment)
    (total_cost budget_remaining time_buffer : ℚ) : List Risk :=
  (if budget_remaining < 0 then [⟨.high, "Budget exceeded"⟩] else []) ++
  (if time_buffer < 0 then [⟨.high, "Deadline exceeded"⟩] else []) ++
  (uncoveredSkills inp).map
    (fun s => ⟨.high, "No developer has required skill: " ++ s⟩) ++
  (if (9 : ℚ) / 10 * inp.budget < total_cost then
    [⟨.medium, "High budget utilization"⟩] else []) ++
  (if time_buffer < (1 : ℚ) / 10 * inp.deadline then
    [⟨.medium, "Tight schedule buffer"⟩] else []) ++
  assignments.filterMap
    (fun a =>
      if a.skill_match < (1 : ℚ) / 2 then
        some ⟨.medium, "Low skill match for project " ++ a.project⟩
      else none)

/-- The assignment record for developer `d` on project `p`
(full project hours, cost = hours × rate). -/
def mkAssignment (p : Project) (d : Developer) : Assignment :=
  { developer := d.name, project := p.name, hours := p.hours,
    cost := p.hours * d.rate,
    skill_match := skillMatch d.skills p.required_skills }

/-- Modelled from the spec (sections 4.3-4.6): assemble the result for
a given per-project developer choice; assignments are listed in
project input order, the schedule is evaluated along the
topological order, and `quantum_powered` records the strategy
actually used. -/
def assembleWith (inp : OptInput) (order : List Project)
    (pick : Project → Option Developer) (qp : Bool) : OptimizationResult :=
  let assignments := inp.projects.filterMap (fun p => (pick p).map (mkAssignment p))
  let total_cost := (assignments.map (·.cost)).sum
  let finish := schedFold pick order [] []
  let completion := maxOf (finish.map (·.2))
  let budget_remaining := inp.budget - total_cost
  let time_buffer := inp.deadline - completion
  { assignments := assignments, total_cost := total_cost,
    budget_remaining := budget_remaining, completion_time := completion,
    time_buffer := time_buffer,
    risks := risksFor inp assignments total_cost budget_remaining time_buffer,
    quantum_powered := qp }

/-- Modelled from the spec (section 4.6): `optimizer.run_optimization`,
the deterministic strategy; graph errors propagate, and the result
always carries `quantum_powered = false`. -/
def run_optimization (inp : OptInput) : Except OptError OptimizationResult :=
  match buildOrder inp.projects with
  | .error e => .error e
  | .ok order => .ok (assembleWith inp order (pickDev inp.developers) false)

/-- Modelled from the spec (sections 4.3, 5, 7): the one observable
outcome of the stochastic/quantum backend call — either a proposed
project-to-developer choice, or one of the recoverable failures
(timeout, backend unavailable, other runtime error). -/
inductive BackendOutcome where
  | success (choice : List (String × String))
  | timeout
  | backendUnavailable
  | runtimeFailure (msg : String)
deriving DecidableEq, Repr

/-- `true` exactly on the recoverable failure outcomes. -/
def BackendOutcome.isFailure : BackendOutcome → Bool
  | .success _ => false
  | _ => true

/-- Modelled from the spec: the developer choice proposed by a
successful stochastic run, falling back to the deterministic pick
for unmapped projects. -/
def quantumPick (devs : List Developer) (choice : List (String × String))
    (p : Project) : Option Developer :=
  match lookupStr choice p.name with
  | some dn =>
      match devs.find? (fun d => d.name = dn) with
      | some d => some d
      | none => pickDev devs p
  | none => pickDev devs p

/-- Modelled from the spec (sections 4.3, 4.6, 7):
`quantum_optimizer.QuantumWorkflowOptimizer.optimize`.  Graph
construction runs first and its errors are fatal; then the
stochastic backend is consulted: on success its choice is used and
`quantum_powered = true`, while on any recoverable failure the
deterministic strategy is substituted transparently with
`quantum_powered = false`, and no failure reaches the caller. -/
def quantum_optimize (outcome : BackendOutcome) (inp : OptInput) :
    Except OptError OptimizationResult :=
  match buildOrder inp.projects with
  | .error e => .error e
  | .ok order =>
    match outcome with
    | .success choice =>
        .ok (assembleWith inp order (quantumPick inp.developers choice) true)
    | _ => .ok (assembleWith inp order (pickDev inp.developers) false)

/-! ## `main.py`: configuration and the `/optimize` route -/

/-- `main.py` lines 23-25: a present-but-implausible IBM token (shorter
than 20 characters or starting with `Your IBM`) is discarded; note
that, by Python truthiness, the empty string skips this filter. -/
def filteredIbmToken : Option String → Option String
  | none => none
  | some s =>
      if s ≠ "" ∧ (s.length < 20 ∨ strBegins s "Your IBM") then none else some s

/-- `main.py` line 32: quantum features are enabled exactly when a
token survives the filter. -/
def useQuantumOf (t : Option String) : Bool :=
  (filteredIbmToken t).isSome

/-- Numeric field of a record, 0 when missing (never hit on validated
data). -/
def getQ (kvs : List (String × Value)) (k : String) : ℚ :=
  pyNumVal ((lookupKey kvs k).getD .vnull)

/-- String payload of a value, `""` otherwise. -/
def getStr : Value → String
  | .vstr s => s
  | _ => ""

/-- String-list payload of a value, `[]` otherwise. -/
def getStrList : Value → List String
  | .vlist xs => xs.filterMap (fun x => match x with | .vstr s => some s | _ => none)
  | _ => []

/-- Modelled from the spec (sections 3, 6): how the optimizer modules
read a developer record supplied by the validation collaborator. -/
def toDeveloper : Value → Developer
  | .vobj kvs =>
      { name := getStr ((lookupKey kvs "name").getD .vnull),
        rate := getQ kvs "rate",
        hours_per_day := getQ kvs "hours_per_day",
        skills := getStrList ((lookupKey kvs "skills").getD .vnull) }
  | _ => { name := "", rate := 0, hours_per_day := 0, skills := [] }

/-- Modelled from the spec (sections 3, 6): how the optimizer modules
read a project record. -/
def toProject : Value → Project
  | .vobj kvs =>
      { name := getStr ((lookupKey kvs "name").getD .vnull),
        hours := getQ kvs "hours",
        priority := getQ kvs "priority",
        dependencies := getStrList ((lookupKey kvs "dependencies").getD .vnull),
        required_skills := getStrList ((lookupKey kvs "required_skills").getD .vnull) }
  | _ => { name := "", hours := 0, priority := 0, dependencies := [], required_skills := [] }

/-- The typed optimizer input read off the JSON request body. -/
def extractInput : Value → OptInput
  | .vobj kvs =>
      { budget := getQ kvs "budget",
        deadline := getQ kvs "deadline",
        developers :=
          (match lookupKey kvs "developers" with
           | some (.vlist l) => l.map toDeveloper
           | _ => []),
        projects :=
          (match lookupKey kvs "projects" with
           | some (.vlist l) => l.map toProject
           | _ => []) }
  | _ => { budget := 0, deadline := 0, developers := [], projects := [] }

/-- Is the value a dict? -/
def Value.isObj : Value → Bool
  | .vobj _ => true
  | _ => false

/-- Does the value support Python's `len()`? Strings, lists and dicts
do; numbers, booleans and `None` make `len()` raise `TypeError`. -/
def pyHasLen : Value → Bool
  | .vstr _ => true
  | .vlist _ => true
  | .vobj _ => true
  | _ => false

/-- Does the logging call of `main.py` line 95 run without raising?
`len(data.get('developers', []))` / `len(data.get('projects', []))`
need a dict body (`.get` raises `AttributeError` otherwise) whose
`developers` and `projects` entries (defaulting to `[]` when absent)
support `len()`. -/
def lenArgsOk : Value → Bool
  | .vobj kvs =>
      pyHasLen ((lookupKey kvs "developers").getD (.vlist [])) &&
      pyHasLen ((lookupKey kvs "projects").getD (.vlist []))
  | _ => false

/-- The error kinds the `/optimize` route can answer with. -/
inductive RouteError where
  | internalError
  | invalidInput
  | optFailed (e : OptError)
deriving DecidableEq, Repr

/-- The route's JSON answer, as a record: `success` and the HTTP
status, the optimization payload when present, the error kind
otherwise, and the merged-in insights (whose generator is a
parameter — the insight collaborators are out of scope and only
read the result). -/
structure RouteResponse (α : Type) where
  success : Bool
  status : Nat
  result : Option OptimizationResult
  error : Option RouteError
  insights : Option α
deriving Repr

/-- `main.py::optimize` (lines 89-161).  The logging call of line 95
runs first: a non-dict body (`AttributeError` at `.get`) or a
`developers`/`projects` entry without `len()` (`TypeError`) raises
there and is caught by the outer handler (500); an invalid body is
answered 400 before any solver runs; then the strategy is picked
from the process-start quantum flag and the `quantum` query
parameter (default `"true"`), a failed solve is answered 500, and a
successful one 200 with the result. -/
def optimize_route {α : Type} (ibmToken : Option String)
    (backend : BackendOutcome) (genInsights : OptimizationResult → α)
    (quantumParam : Option String) (data : Value) : RouteResponse α :=
  if !lenArgsOk data then
    { success := false, status := 500, result := none,
      error := some .internalError, insights := none }
  else if !validate_input data then
    { success := false, status := 400, result := none,
      error := some .invalidInput, insights := none }
  else
    let inp := extractInput data
    let solved :=
      if useQuantumOf ibmToken ∧ pyLower (quantumParam.getD "true") = "true" then
        quantum_optimize backend inp
      else run_optimization inp
    match solved with
    | .error e =>
        { success := false, status := 500, result := none,
          error := some (.optFailed e), insights := none }
    | .ok r =>
        { success := true, status := 200, result := some r,
          error := none, insights := some (genInsights r) }

/-! ## Claim-level predicates and concrete sample data -/

/-- "a number strictly greater than 0" in the sense of the source's
check (`isinstance(x, (int, float)) and x > 0`). -/
def NumberGt0 (v : Value) : Prop :=
  pyIsNumber v = true ∧ 0 < pyNumVal v

/-- A developer record as the input contract describes it: a dict with
`name`, `rate`, `hours_per_day`, `skills`, positive numeric rate and
hours per day. -/
def DevWellFormed (dev : Value) : Prop :=
  ∃ kvs, dev = .vobj kvs ∧
    (∀ k ∈ ["name", "rate", "hours_per_day", "skills"], (lookupKey kvs k).isSome = true) ∧
    NumberGt0 ((lookupKey kvs "rate").getD .vnull) ∧
    NumberGt0 ((lookupKey kvs "hours_per_day").getD .vnull)

/-- The project fields `_validate_input` actually demands: a dict with
`name`, `hours`, `priority`, positive numeric hours, numeric priority
between 1 and 5. -/
def ProjCoreWellFormed (proj : Value) : Prop :=
  ∃ kvs, proj = .vobj kvs ∧
    (∀ k ∈ ["name", "hours", "priority"], (lookupKey kvs k).isSome = true) ∧
    NumberGt0 ((lookupKey kvs "hours").getD .vnull) ∧
    (pyIsNumber ((lookupKey kvs "priority").getD .vnull) = true ∧
      1 ≤ pyNumVal ((lookupKey kvs "priority").getD .vnull) ∧
      pyNumVal ((lookupKey kvs "priority").getD .vnull) ≤ 5)

/-- A fully well-formed request: dict body, positive numeric budget and
deadline, non-empty developer and project lists of well-formed
records. -/
def RequestWellFormed (data : Value) : Prop :=
  ∃ kvs, data = .vobj kvs ∧
    NumberGt0 ((lookupKey kvs "budget").getD .vnull) ∧
    NumberGt0 ((lookupKey kvs "deadline").getD .vnull) ∧
    (∃ devs, lookupKey kvs "developers" = some (.vlist devs) ∧ devs ≠ [] ∧
      ∀ dev ∈ devs, DevWellFormed dev) ∧
    (∃ projs, lookupKey kvs "projects" = some (.vlist projs) ∧ projs ≠ [] ∧
      ∀ p ∈ projs, ProjCoreWellFormed p)

/-- The acceptance conditions claimed for validation: positive numeric
budget and deadline, well-formed developer records, well-formed
project cores. -/
def C5Conditions (data : Value) : Prop :=
  ∃ kvs, data = .vobj kvs ∧
    NumberGt0 ((lookupKey kvs "budget").getD .vnull) ∧
    NumberGt0 ((lookupKey kvs "deadline").getD .vnull) ∧
    (∃ devs, lookupKey kvs "developers" = some (.vlist devs) ∧
      ∀ dev ∈ devs, DevWellFormed dev) ∧
    (∃ projs, lookupKey kvs "projects" = some (.vlist projs) ∧
      ∀ p ∈ projs, ProjCoreWellFormed p)

/-- "empty (or not a list)" for the value found under `developers` /
`projects` (a missing key also rejects, a fortiori). -/
def emptyOrNotList : Option Value → Bool
  | some (.vlist l) => l.isEmpty
  | _ => true

/-- Remove the listed keys from an association list. -/
def stripKeys (bad : List String) (kvs : List (String × Value)) :
    List (String × Value) :=
  kvs.filter (fun kv => !bad.contains kv.1)

/-- Remove `dependencies` and `required_skills` from a project record. -/
def stripProject : Value → Value
  | .vobj kvs => .vobj (stripKeys ["dependencies", "required_skills"] kvs)
  | v => v

/-- Apply `stripProject` to every member of a project list value. -/
def stripProjectsValue : Value → Value
  | .vlist l => .vlist (l.map stripProject)
  | v => v

/-- Remove `dependencies` and `required_skills` from every project of a
request body. -/
def stripProjFields : Value → Value
  | .vobj kvs =>
      .vobj (kvs.map (fun kv =>
        if kv.1 = "projects" then (kv.1, stripProjectsValue kv.2) else kv))
  | v => v

/-- The sample developer of the design document's first scenario. -/
def sampleDev : Value :=
  .vobj [("name", .vstr "A"), ("rate", .vnum 50), ("hours_per_day", .vnum 8),
         ("skills", .vlist [.vstr "python"])]

/-- The sample project of the design document's first scenario. -/
def sampleProj : Value :=
  .vobj [("name", .vstr "P1"), ("hours", .vnum 40), ("priority", .vnum 3),
         ("dependencies", .vlist []), ("required_skills", .vlist [.vstr "python"])]

/-- The design document's first scenario as a request body. -/
def sampleData : Value :=
  .vobj [("budget", .vnum 10000), ("deadline", .vnum 10),
         ("developers", .vlist [sampleDev]), ("projects", .vlist [sampleProj])]

/-- A plausibly-shaped IBM token that survives the filter of
`main.py` lines 23-25. -/
def sampleToken : Option String :=
  some "X1234567890123456789012345"

/-- A project record that omits `dependencies` and `required_skills`
but carries everything `_validate_input` checks. -/
def slimProj : Value :=
  .vobj [("name", .vstr "P1"), ("hours", .vnum 40), ("priority", .vnum 3)]

/-- A request whose only project lacks `dependencies` and
`required_skills`. -/
def slimData : Value :=
  .vobj [("budget", .vnum 10000), ("deadline", .vnum 10),
         ("developers", .vlist [sampleDev]), ("projects", .vlist [slimProj])]

/-- A request whose two projects depend on each other. -/
def cyclicData : Value :=
  .vobj [("budget", .vnum 10000), ("deadline", .vnum 10),
         ("developers", .vlist [sampleDev]),
         ("projects", .vlist
           [.vobj [("name", .vstr "P1"), ("hours", .vnum 10), ("priority", .vnum 3),
                   ("dependencies", .vlist [.vstr "P2"]), ("required_skills", .vlist [])],
            .vobj [("name", .vstr "P2"), ("hours", .vnum 10), ("priority", .vnum 3),
                   ("dependencies", .vlist [.vstr "P1"]), ("required_skills", .vlist [])]])]

/-- A CSV upload with no budget/deadline metadata rows. -/
def sampleCsv : String :=
  "Developers\nname,rate,hours per day,skills\nAlice,50,8,python\nProjects\nname,hours,priority\nP1,40,3"

/-- What `_parse_csv` produces for `sampleCsv`: success with budget and
deadline both 0. -/
def sampleCsvParsed : Value :=
  .vobj [("success", .vbool true), ("budget", .vnum 0), ("deadline", .vnum 0),
         ("developers", .vlist
           [.vobj [("name", .vstr "Alice"), ("rate", .vnum 50),
                   ("hours_per_day", .vnum 8),
                   ("skills", .vlist [.vstr "python"])]]),
         ("projects", .vlist
           [.vobj [("name", .vstr "P1"), ("hours", .vnum 40),
                   ("priority", .vnum 3)]])]

deriving instance DecidableEq for Except

/-- Did the computation succeed? -/
def isOkE {e a : Type} : Except e a → Bool
  | .ok _ => true
  | .error _ => false

/-! ## Theorems -/

theorem csvErrDict_has_success (e : PyErr) : hasKey (csvErrDict e) "success" = true := by
  simp [csvErrDict, hasKey, lookupKey]

theorem parse_csv_body_has_success (rows : List (List String)) :
    hasKey (parse_csv_body rows) "success" = true := by
  unfold parse_csv_body
  rcases h1 : extract_metadata rows with e | ⟨b, d⟩
  · simp [csvErrDict_has_success]
  · rcases h2 : find_section_indices rows with ⟨di, pi⟩
    cases di with
    | none => cases pi <;> simp [hasKey, lookupKey]
    | some i =>
      cases pi with
      | none => simp [hasKey, lookupKey]
      | some j =>
        rcases h3 : extract_developers rows i with e | devs
        · simp [h3, csvErrDict_has_success]
        · rcases h4 : extract_projects rows j with e | projs
          · simp [h3, h4, csvErrDict_has_success]
          · simp [h3, h4, hasKey, lookupKey]

/-- C8: `parse_uploaded_file` never raises — for every byte string,
filename, and any behaviour of the decoder and the pandas oracle it
returns a dict carrying `success`; and whenever the lower-cased
filename ends in none of `.csv`, `.xls`, `.xlsx`, that dict is the
`success=False` / unsupported-file-format answer. -/
theorem c8_parse_uploaded_file_total
    (excelFn : List Nat → Except PyErr ExcelRaw)
    (decodeFn : List Nat → Except PyErr String)
    (content : List Nat) (filename : String) :
    hasKey (parse_uploaded_file excelFn decodeFn content filename) "success" = true ∧
    ((strEnds (pyLower filename) ".csv" = false ∧
      strEnds (pyLower filename) ".xls" = false ∧
      strEnds (pyLower filename) ".xlsx" = false) →
      parse_uploaded_file excelFn decodeFn content filename =
        .vobj [("success", .vbool false),
               ("error", .vstr "Unsupported file format. Please upload a CSV or Excel file.")]) := by
  constructor
  · unfold parse_uploaded_file
    by_cases hx : (strEnds (pyLower filename) ".xlsx" || strEnds (pyLower filename) ".xls") = true
    · rw [if_pos hx]
      unfold parse_excel
      rcases he : excelFn content with e | raw
      · cases e <;> simp [hasKey, lookupKey]
      · simp [hasKey, lookupKey]
    · rw [if_neg hx]
      by_cases hc : strEnds (pyLower filename) ".csv" = true
      · rw [if_pos hc]
        unfold parse_csv
        rcases hd : decodeFn content with e | s
        · simp [hasKey, lookupKey]
        · simp [parse_csv_body_has_success]
      · rw [if_neg hc]
        simp [hasKey, lookupKey]
  · rintro ⟨h1, h2, h3⟩
    unfold parse_uploaded_file
    simp [h1, h2, h3]

theorem c8_parse_uploaded_file_total_inst :
    hasKey (parse_uploaded_file (fun _ => .error .importError) asciiDecode [] "notes.txt")
      "success" = true ∧
    parse_uploaded_file (fun _ => .error .importError) asciiDecode [] "notes.txt" =
      .vobj [("success", .vbool false),
             ("error", .vstr "Unsupported file format. Please upload a CSV or Excel file.")] :=
  ⟨(c8_parse_uploaded_file_total (fun _ => .error .importError) asciiDecode [] "notes.txt").1,
   (c8_parse_uploaded_file_total (fun _ => .error .importError) asciiDecode [] "notes.txt").2
     (by decide)⟩

theorem extract_metadata_go_default (l : List (List String)) :
    ∀ b d : ℚ,
      (∀ row ∈ l, pyLower (row.getD 0 "") ≠ "budget" ∧ pyLower (row.getD 0 "") ≠ "deadline") →
      extract_metadata_go l b d = .ok (b, d) := by
  induction l with
  | nil => intro b d _; rfl
  | cons row rest ih =>
    intro b d h
    have hrow := h row (by simp)
    have hrest : ∀ r ∈ rest,
        pyLower (r.getD 0 "") ≠ "budget" ∧ pyLower (r.getD 0 "") ≠ "deadline" :=
      fun r hr => h r (by simp [hr])
    cases row with
    | nil => simpa [extract_metadata_go] using ih b d hrest
    | cons c0 tl =>
      cases tl with
      | nil => simpa [extract_metadata_go] using ih b d hrest
      | cons c1 tl2 =>
        have h1 : pyLower c0 ≠ "budget" := by simpa using hrow.1
        have h2 : pyLower c0 ≠ "deadline" := by simpa using hrow.2
        simpa [extract_metadata_go, h1, h2] using ih b d hrest

/-- C9: `_extract_metadata` looks only at the first ten rows; when no
row among them opens with `budget` or `deadline`, both values
default to 0; and `_parse_csv` can therefore succeed with
`budget = deadline = 0`, an input the optimizer's validation
(`_validate_input`) rejects. -/
theorem c9_metadata_first_ten :
    (∀ rows : List (List String), extract_metadata rows = extract_metadata (rows.take 10)) ∧
    (∀ rows : List (List String),
      (∀ row ∈ rows.take 10,
        pyLower (row.getD 0 "") ≠ "budget" ∧ pyLower (row.getD 0 "") ≠ "deadline") →
      extract_metadata rows = .ok (0, 0)) ∧
    parse_csv asciiDecode (asciiBytes sampleCsv) = .ok sampleCsvParsed ∧
    (extractInput sampleCsvParsed).budget = 0 ∧
    (extractInput sampleCsvParsed).deadline = 0 ∧
    validate_input sampleCsvParsed = false := by
  refine ⟨?_, ?_, ?_, ?_, ?_, ?_⟩
  · intro rows
    simp [extract_metadata, List.take_take]
  · intro rows h
    exact extract_metadata_go_default _ 0 0 h
  · rfl
  · rfl
  · rfl
  · rfl

theorem c9_metadata_first_ten_inst :
    extract_metadata (csvSplit sampleCsv) = .ok (0, 0) ∧
    validate_input sampleCsvParsed = false :=
  ⟨c9_metadata_first_ten.2.1 (csvSplit sampleCsv) (by decide),
   c9_metadata_first_ten.2.2.2.2.2⟩

theorem guardMap_ne_nil (l : List String) :
    (if l.isEmpty = true then [defaultRecommendation] else l).map Value.vstr ≠ [] := by
  cases l <;> simp

theorem mem_map_vstr (l : List String) (v : Value) :
    v ∈ l.map Value.vstr → ∃ s, v = .vstr s := by
  intro hv
  rcases List.mem_map.mp hv with ⟨s, _, hs⟩
  exact ⟨s, hs.symm⟩

/-- C10: `_parse_response` always yields a dict with an `explanation`
string and a non-empty list of string `recommendations`, for every
response text and every behaviour (including raising) of the two
`re` calls; defaults fill in whenever nothing was extracted. -/
theorem c10_parse_response_shape
    (reSplitF reFindF : String → Except PyErr (List String)) (response : String) :
    ∃ kvs expl recs,
      parse_response reSplitF reFindF response = .vobj kvs ∧
      lookupKey kvs "explanation" = some (.vstr expl) ∧
      lookupKey kvs "recommendations" = some (.vlist recs) ∧
      recs ≠ [] ∧ ∀ v ∈ recs, ∃ s, v = .vstr s := by
  unfold parse_response
  rcases hb : parse_response_body reSplitF reFindF response with e | v
  · refine ⟨_, _, _, rfl, rfl, rfl, by simp, ?_⟩
    intro v hv
    simp only [List.mem_cons, List.not_mem_nil, or_false] at hv
    rcases hv with h | h | h <;> exact ⟨_, h⟩
  · unfold parse_response_body at hb
    by_cases hp : 1 < (strSplitOnFull "Recommendations:" response).length
    · rw [if_pos hp] at hb
      rcases hs : reSplitF (pyStrip ((strSplitOnFull "Recommendations:" response).getD 1 ""))
        with e | items
      · rw [hs] at hb; cases hb
      · rw [hs] at hb
        simp only [Except.ok.injEq] at hb
        subst hb
        refine ⟨_, _, _, rfl, rfl, rfl, guardMap_ne_nil _, fun v hv => mem_map_vstr _ v hv⟩
    · rw [if_neg hp] at hb
      rcases hf : reFindF response with e | ms
      · rw [hf] at hb; cases hb
      · rw [hf] at hb
        simp only [Except.ok.injEq] at hb
        subst hb
        refine ⟨_, _, _, rfl, rfl, rfl, guardMap_ne_nil _, fun v hv => mem_map_vstr _ v hv⟩

theorem c10_parse_response_shape_inst :
    ∃ kvs expl recs,
      parse_response (fun _ => .error .typeError) (fun _ => .error .typeError)
        "no separator" = .vobj kvs ∧
      lookupKey kvs "explanation" = some (.vstr expl) ∧
      lookupKey kvs "recommendations" = some (.vlist recs) ∧
      recs ≠ [] ∧ ∀ v ∈ recs, ∃ s, v = .vstr s :=
  c10_parse_response_shape (fun _ => .error .typeError) (fun _ => .error .typeError)
    "no separator"

theorem numbergt0_isSome (o : Option Value) :
    NumberGt0 (o.getD .vnull) → o.isSome = true := by
  cases o with
  | none => rintro ⟨h, _⟩; cases h
  | some v => intro _; rfl

theorem devOk_iff (dev : Value) : devOk dev = true ↔ DevWellFormed dev := by
  cases dev <;> simp [devOk, DevWellFormed, numPos, NumberGt0, and_assoc]

theorem projOk_iff (proj : Value) : projOk proj = true ↔ ProjCoreWellFormed proj := by
  cases proj <;> simp [projOk, ProjCoreWellFormed, numPos, NumberGt0, and_assoc]

theorem validate_input_iff (data : Value) :
    validate_input data = true ↔ RequestWellFormed data := by
  cases data with
  | vobj kvs =>
    constructor
    · intro h
      unfold validate_input at h
      simp only [Bool.and_eq_true, List.all_eq_true] at h
      obtain ⟨⟨⟨⟨_, hb⟩, hd⟩, hdevs⟩, hprojs⟩ := h
      refine ⟨kvs, rfl, ?_, ?_, ?_, ?_⟩
      · simpa [numPos, NumberGt0] using hb
      · simpa [numPos, NumberGt0] using hd
      · rcases hld : lookupKey kvs "developers" with _ | v
        · rw [hld] at hdevs; cases hdevs
        · rw [hld] at hdevs
          cases v with
          | vlist devs =>
            simp only [Bool.and_eq_true, List.all_eq_true] at hdevs
            exact ⟨devs, rfl, by simpa using hdevs.1,
              fun d hd' => (devOk_iff d).mp (hdevs.2 d hd')⟩
          | vnull => cases hdevs
          | vbool b => cases hdevs
          | vnum q => cases hdevs
          | vstr s => cases hdevs
          | vobj kvs2 => cases hdevs
      · rcases hlp : lookupKey kvs "projects" with _ | v
        · rw [hlp] at hprojs; cases hprojs
        · rw [hlp] at hprojs
          cases v with
          | vlist projs =>
            simp only [Bool.and_eq_true, List.all_eq_true] at hprojs
            exact ⟨projs, rfl, by simpa using hprojs.1,
              fun p hp' => (projOk_iff p).mp (hprojs.2 p hp')⟩
          | vnull => cases hprojs
          | vbool b => cases hprojs
          | vnum q => cases hprojs
          | vstr s => cases hprojs
          | vobj kvs2 => cases hprojs
    · rintro ⟨kvs', heq, hb, hd, ⟨devs, hld, hdne, hdevs⟩, ⟨projs, hlp, hpne, hprojs⟩⟩
      injection heq with heq'
      subst heq'
      unfold validate_input
      simp only [Bool.and_eq_true, List.all_eq_true]
      refine ⟨⟨⟨⟨?_, ?_⟩, ?_⟩, ?_⟩, ?_⟩
      · intro k hk
        simp only [List.mem_cons, List.not_mem_nil, or_false] at hk
        rcases hk with rfl | rfl | rfl | rfl
        · exact numbergt0_isSome _ hb
        · exact numbergt0_isSome _ hd
        · simp [hld]
        · simp [hlp]
      · simpa [numPos, NumberGt0] using hb
      · simpa [numPos, NumberGt0] using hd
      · rw [hld]
        simp only [Bool.and_eq_true, List.all_eq_true]
        exact ⟨by simpa using hdne, fun d hd' => (devOk_iff d).mpr (hdevs d hd')⟩
      · rw [hlp]
        simp only [Bool.and_eq_true, List.all_eq_true]
        exact ⟨by simpa using hpne, fun p hp' => (projOk_iff p).mpr (hprojs p hp')⟩
  | vnull => simp [validate_input, RequestWellFormed]
  | vbool b => simp [validate_input, RequestWellFormed]
  | vnum q => simp [validate_input, RequestWellFormed]
  | vstr s => simp [validate_input, RequestWellFormed]
  | vlist xs => simp [validate_input, RequestWellFormed]

theorem validate_isObj (data : Value) :
    validate_input data = true → data.isObj = true := by
  cases data <;> simp [validate_input, Value.isObj]

theorem validate_lenArgsOk (data : Value) :
    validate_input data = true → lenArgsOk data = true := by
  intro h
  obtain ⟨kvs, heq, _, _, ⟨devs, hld, _, _⟩, ⟨projs, hlp, _, _⟩⟩ :=
    (validate_input_iff data).mp h
  subst heq
  simp [lenArgsOk, hld, hlp, pyHasLen]

theorem route_reject {α : Type} (tok : Option String) (backend : BackendOutcome)
    (gen : OptimizationResult → α) (qp : Option String) (data : Value)
    (h : validate_input data = false) :
    (optimize_route tok backend gen qp data).success = false ∧
    (optimize_route tok backend gen qp data).result = none ∧
    (optimize_route tok backend gen qp data).error.isSome = true := by
  by_cases hl : lenArgsOk data = true <;> simp [optimize_route, hl, h]

theorem sampleData_wellFormed : RequestWellFormed sampleData := by
  refine ⟨_, rfl, ⟨by decide, by decide⟩, ⟨by decide, by decide⟩,
    ⟨[sampleDev], rfl, by simp, ?_⟩, ⟨[sampleProj], rfl, by simp, ?_⟩⟩
  · intro d hd
    simp only [List.mem_singleton] at hd
    subst hd
    exact ⟨_, rfl, by decide, ⟨by decide, by decide⟩, ⟨by decide, by decide⟩⟩
  · intro p hp
    simp only [List.mem_singleton] at hp
    subst hp
    exact ⟨_, rfl, by decide, ⟨by decide, by decide⟩, by decide, by decide, by decide⟩

/-- C4: a request whose `developers` or `projects` entry is missing,
not a list, or an empty list fails validation and is rejected with
no solver consulted (the answer is the same for every backend): the
400 invalid-input response when both entries still support `len()`
(lists, strings, dicts, or absent), and the 500 internal-error
response when one of them is a number, boolean or null, where the
logging call of line 95 raises before validation runs; conversely
any fully well-formed request (non-empty lists of well-formed
records) passes validation. -/
theorem c4_nonempty_validation (α : Type) (tok : Option String)
    (backend : BackendOutcome) (gen : OptimizationResult → α) (qp : Option String) :
    (∀ kvs : List (String × Value),
      (emptyOrNotList (lookupKey kvs "developers") ||
       emptyOrNotList (lookupKey kvs "projects")) = true →
      validate_input (.vobj kvs) = false ∧
      optimize_route tok backend gen qp (.vobj kvs) =
        (if lenArgsOk (.vobj kvs) = true then
          { success := false, status := 400, result := none,
            error := some .invalidInput, insights := none }
        else
          { success := false, status := 500, result := none,
            error := some .internalError, insights := none })) ∧
    (∀ data, RequestWellFormed data → validate_input data = true) := by
  constructor
  · intro kvs h
    have hnw : ¬ RequestWellFormed (.vobj kvs) := by
      rintro ⟨kvs', heq, _, _, ⟨devs, hld, hdne, _⟩, ⟨projs, hlp, hpne, _⟩⟩
      injection heq with heq'
      subst heq'
      have h2 : emptyOrNotList (lookupKey kvs "developers") = true ∨
          emptyOrNotList (lookupKey kvs "projects") = true := by simpa using h
      rcases h2 with ha | hb
      · rw [hld] at ha
        exact hdne (by simpa [emptyOrNotList] using ha)
      · rw [hlp] at hb
        exact hpne (by simpa [emptyOrNotList] using hb)
    have hv : validate_input (.vobj kvs) = false :=
      Bool.eq_false_iff.mpr (fun ht => hnw ((validate_input_iff _).mp ht))
    refine ⟨hv, ?_⟩
    by_cases hl : lenArgsOk (.vobj kvs) = true <;> simp [optimize_route, hl, hv]
  · exact fun data h => (validate_input_iff data).mpr h

theorem c4_nonempty_validation_inst :
    (validate_input (.vobj [("budget", .vnum 1), ("deadline", .vnum 1),
        ("developers", .vlist []), ("projects", .vlist [sampleProj])]) = false ∧
      optimize_route (α := Nat) none .timeout (fun _ => 0) none
        (.vobj [("budget", .vnum 1), ("deadline", .vnum 1),
          ("developers", .vlist []), ("projects", .vlist [sampleProj])]) =
        { success := false, status := 400, result := none,
          error := some .invalidInput, insights := none }) ∧
    (validate_input (.vobj [("budget", .vnum 1), ("deadline", .vnum 1),
        ("developers", .vnum 3), ("projects", .vlist [sampleProj])]) = false ∧
      optimize_route (α := Nat) none .timeout (fun _ => 0) none
        (.vobj [("budget", .vnum 1), ("deadline", .vnum 1),
          ("developers", .vnum 3), ("projects", .vlist [sampleProj])]) =
        { success := false, status := 500, result := none,
          error := some .internalError, insights := none }) ∧
    validate_input sampleData = true := by
  refine ⟨?_, ?_, (c4_nonempty_validation Nat none .timeout (fun _ => 0) none).2
    sampleData sampleData_wellFormed⟩
  · have h := (c4_nonempty_validation Nat none .timeout (fun _ => 0) none).1
      [("budget", .vnum 1), ("deadline", .vnum 1),
       ("developers", .vlist []), ("projects", .vlist [sampleProj])] (by decide)
    simpa using h
  · have h := (c4_nonempty_validation Nat none .timeout (fun _ => 0) none).1
      [("budget", .vnum 1), ("deadline", .vnum 1),
       ("developers", .vnum 3), ("projects", .vlist [sampleProj])] (by decide)
    simpa using h

/-- C5: validation accepts only requests with positive numeric budget
and deadline, complete developer records with positive rate and
hours per day, and projects with positive hours and priority in
1..5; whenever these conditions fail, validation answers `false` and
the route rejects the request without producing any result,
regardless of the solver backends. -/
theorem c5_validation_conditions (α : Type) (tok : Option String)
    (backend : BackendOutcome) (gen : OptimizationResult → α) (qp : Option String)
    (data : Value) :
    (validate_input data = true → C5Conditions data) ∧
    (¬ C5Conditions data →
      validate_input data = false ∧
      (optimize_route tok backend gen qp data).success = false ∧
      (optimize_route tok backend gen qp data).result = none) := by
  have honly : validate_input data = true → C5Conditions data := by
    intro h
    obtain ⟨kvs, heq, hb, hd, ⟨devs, hld, _, hdevs⟩, ⟨projs, hlp, _, hprojs⟩⟩ :=
      (validate_input_iff data).mp h
    exact ⟨kvs, heq, hb, hd, ⟨devs, hld, hdevs⟩, ⟨projs, hlp, hprojs⟩⟩
  refine ⟨honly, ?_⟩
  intro hnc
  have hv : validate_input data = false :=
    Bool.eq_false_iff.mpr (fun ht => hnc (honly ht))
  have hr := route_reject tok backend gen qp data hv
  exact ⟨hv, hr.1, hr.2.1⟩

theorem c5_validation_conditions_inst :
    validate_input .vnull = false ∧
    (optimize_route (α := Nat) none .timeout (fun _ => 0) none .vnull).success = false ∧
    (optimize_route (α := Nat) none .timeout (fun _ => 0) none .vnull).result = none :=
  (c5_validation_conditions Nat none .timeout (fun _ => 0) none .vnull).2
    (by rintro ⟨kvs, heq, _⟩; cases heq)

/-- C6 (counterexample): `_validate_input` accepts a request whose only
project record carries neither `dependencies` nor `required_skills`
— refuting the claim that validation rejects such requests. -/
theorem c6_counterexample :
    validate_input slimData = true ∧
    hasKey slimProj "dependencies" = false ∧
    hasKey slimProj "required_skills" = false := by
  refine ⟨by decide, by decide, by decide⟩

theorem stripKeys_cons (bad : List String) (k' : String) (v : Value)
    (rest : List (String × Value)) :
    stripKeys bad ((k', v) :: rest) =
      if bad.contains k' = true then stripKeys bad rest
      else (k', v) :: stripKeys bad rest := by
  cases hb : bad.contains k' <;>
    simp [stripKeys, List.filter_cons, hb] <;> simpa using hb

theorem lookupKey_stripKeys (bad : List String) (kvs : List (String × Value))
    (k : String) (hk : bad.contains k = false) :
    lookupKey (stripKeys bad kvs) k = lookupKey kvs k := by
  induction kvs with
  | nil => rfl
  | cons kv rest ih =>
    obtain ⟨k', v⟩ := kv
    rw [stripKeys_cons]
    by_cases hb : bad.contains k' = true
    · have hne : k' ≠ k := by
        rintro rfl
        rw [hb] at hk
        cases hk
      rw [if_pos hb, ih]
      simp only [lookupKey, if_neg hne]
    · rw [if_neg hb]
      by_cases hkk : k' = k <;>
        simp only [lookupKey, hkk, ih, if_pos, if_neg, ite_true, ite_false]

theorem projOk_strip (p : Value) : projOk (stripProject p) = projOk p := by
  cases p with
  | vobj kvs =>
    have h1 := lookupKey_stripKeys ["dependencies", "required_skills"] kvs "name" (by decide)
    have h2 := lookupKey_stripKeys ["dependencies", "required_skills"] kvs "hours" (by decide)
    have h3 := lookupKey_stripKeys ["dependencies", "required_skills"] kvs "priority" (by decide)
    simp only [stripProject, projOk, List.all_cons, List.all_nil, h1, h2, h3]
  | vnull => rfl
  | vbool b => rfl
  | vnum q => rfl
  | vstr s => rfl
  | vlist xs => rfl

theorem lookupKey_map_projects (g : Value → Value) (kvs : List (String × Value))
    (k : String) :
    lookupKey (kvs.map (fun kv => if kv.1 = "projects" then (kv.1, g kv.2) else kv)) k =
      if k = "projects" then (lookupKey kvs k).map g else lookupKey kvs k := by
  induction kvs with
  | nil => by_cases hk : k = "projects" <;> simp [lookupKey, hk]
  | cons kv rest ih =>
    obtain ⟨k', v⟩ := kv
    simp only [List.map_cons]
    by_cases hk' : k' = "projects"
    · subst hk'
      by_cases hkk : k = "projects"
      · subst hkk
        simp [lookupKey, ih]
      · have hkk' : ("projects" : String) ≠ k := fun h => hkk h.symm
        simp [lookupKey, hkk, hkk', ih]
    · rw [if_neg (show ¬((k', v).1 = "projects") from hk')]
      by_cases hkk : k' = k
      · subst hkk
        simp [lookupKey, hk', ih]
      · by_cases hkp : k = "projects"
        · subst hkp
          simp [lookupKey, hk', hkk, ih]
        · simp [lookupKey, hk', hkk, hkp, ih]

/-- C6 (amended): validation never inspects `dependencies` or
`required_skills` — removing both fields from every project leaves
the verdict unchanged — and an accepted request only guarantees that
each project carries `name`, `hours` and `priority` (with the
numeric constraints). -/
theorem c6_validation_ignores_optional_fields (data : Value) :
    validate_input (stripProjFields data) = validate_input data ∧
    (validate_input data = true →
      ∃ kvs projs, data = .vobj kvs ∧
        lookupKey kvs "projects" = some (.vlist projs) ∧
        ∀ p ∈ projs, ProjCoreWellFormed p) := by
  constructor
  · cases data with
    | vobj kvs =>
      have hL := fun k => lookupKey_map_projects stripProjectsValue kvs k
      simp only [stripProjFields, validate_input, List.all_cons, List.all_nil, hL]
      rcases hp : lookupKey kvs "projects" with _ | v
      · simp
      · cases v with
        | vlist l =>
          have h1 : (l.map stripProject).isEmpty = l.isEmpty := by cases l <;> rfl
          have h2 : (l.all fun p => projOk (stripProject p)) = l.all projOk := by
            simp only [projOk_strip]
          simp [stripProjectsValue, List.all_map, Function.comp_def, h1, h2]
        | vnull => simp [stripProjectsValue]
        | vbool b => simp [stripProjectsValue]
        | vnum q => simp [stripProjectsValue]
        | vstr s => simp [stripProjectsValue]
        | vobj kvs2 => simp [stripProjectsValue]
    | vnull => rfl
    | vbool b => rfl
    | vnum q => rfl
    | vstr s => rfl
    | vlist xs => rfl
  · intro h
    obtain ⟨kvs, heq, _, _, _, ⟨projs, hlp, _, hprojs⟩⟩ := (validate_input_iff data).mp h
    exact ⟨kvs, projs, heq, hlp, hprojs⟩

theorem c6_validation_ignores_optional_fields_inst :
    validate_input (stripProjFields sampleData) = validate_input sampleData ∧
    ∃ kvs projs, sampleData = .vobj kvs ∧
      lookupKey kvs "projects" = some (.vlist projs) ∧
      ∀ p ∈ projs, ProjCoreWellFormed p :=
  ⟨(c6_validation_ignores_optional_fields sampleData).1,
   (c6_validation_ignores_optional_fields sampleData).2
     ((validate_input_iff sampleData).mpr sampleData_wellFormed)⟩

/-- C1: when the quantum strategy is enabled and requested and the
stochastic backend fails in any way (timeout, unavailability,
runtime error), the route answers 200 with the deterministic
strategy's result, `quantum_powered = false`, and no error reaches
the caller. -/
theorem c1_quantum_fallback (α : Type) (tok : Option String)
    (backend : BackendOutcome) (gen : OptimizationResult → α)
    (qp : Option String) (data : Value)
    (hq : useQuantumOf tok = true)
    (hp : pyLower (qp.getD "true") = "true")
    (hf : backend.isFailure = true)
    (hv : validate_input data = true)
    (hr : isOkE (run_optimization (extractInput data)) = true) :
    ∃ r, run_optimization (extractInput data) = .ok r ∧
      optimize_route tok backend gen qp data =
        { success := true, status := 200, result := some r, error := none,
          insights := some (gen r) } ∧
      r.quantum_powered = false := by
  have hlen := validate_lenArgsOk data hv
  rcases hrun : run_optimization (extractInput data) with e | r
  · rw [hrun] at hr; cases hr
  · have hqe : quantum_optimize backend (extractInput data) = .ok r := by
      unfold quantum_optimize
      unfold run_optimization at hrun
      rcases hb : buildOrder (extractInput data).projects with e | order
      · rw [hb] at hrun; cases hrun
      · rw [hb] at hrun
        cases backend with
        | success c => cases hf
        | timeout => exact hrun
        | backendUnavailable => exact hrun
        | runtimeFailure m => exact hrun
    have hqp : r.quantum_powered = false := by
      unfold run_optimization at hrun
      rcases hb : buildOrder (extractInput data).projects with e | order
      · rw [hb] at hrun; cases hrun
      · rw [hb] at hrun
        injection hrun with h
        rw [← h]
        rfl
    refine ⟨r, rfl, ?_, hqp⟩
    simp [optimize_route, hlen, hv, hq, hp, hqe]

theorem c1_quantum_fallback_inst :
    ∃ r, run_optimization (extractInput sampleData) = .ok r ∧
      optimize_route sampleToken .timeout (fun _ => (0 : Nat)) none sampleData =
        { success := true, status := 200, result := some r, error := none,
          insights := some 0 } ∧
      r.quantum_powered = false :=
  c1_quantum_fallback Nat sampleToken .timeout (fun _ => 0) none sampleData
    (by decide) (by decide) rfl (by decide) (by decide)

/-- C3: with the quantum backend disabled at process start (no token
surviving the filter), the route's answer is independent of the
stochastic backend and of the `quantum` query parameter, and any
result it returns is exactly the deterministic strategy's result
with `quantum_powered = false`. -/
theorem c3_classical_when_disabled (α : Type) (tok : Option String)
    (b1 b2 : BackendOutcome) (gen : OptimizationResult → α)
    (qp1 qp2 : Option String) (data : Value)
    (hq : useQuantumOf tok = false) :
    optimize_route tok b1 gen qp1 data = optimize_route tok b2 gen qp2 data ∧
    ∀ r, (optimize_route tok b1 gen qp1 data).result = some r →
      r.quantum_powered = false ∧ run_optimization (extractInput data) = .ok r := by
  constructor
  · simp [optimize_route, hq]
  · intro r hres
    by_cases hlen : lenArgsOk data = true
    · by_cases hv : validate_input data = true
      · rcases hb : run_optimization (extractInput data) with e | r'
        · simp [optimize_route, hlen, hv, hq, hb] at hres
        · simp [optimize_route, hlen, hv, hq, hb] at hres
          subst hres
          refine ⟨?_, rfl⟩
          unfold run_optimization at hb
          rcases hb2 : buildOrder (extractInput data).projects with e | order
          · rw [hb2] at hb; cases hb
          · rw [hb2] at hb
            injection hb with h
            rw [← h]
            rfl
      · simp [optimize_route, hlen, hv] at hres
    · simp [optimize_route, hlen] at hres

theorem c3_classical_when_disabled_inst :
    (optimize_route none .timeout (fun _ => (0 : Nat)) none sampleData =
      optimize_route none (.success []) (fun _ => 0) (some "true") sampleData) ∧
    ∀ r, (optimize_route none .timeout (fun _ => (0 : Nat)) none sampleData).result = some r →
      r.quantum_powered = false ∧ run_optimization (extractInput sampleData) = .ok r :=
  c3_classical_when_disabled Nat none .timeout (.success []) (fun _ => 0) none
    (some "true") sampleData rfl

theorem contains_true_mem (l : List String) (a : String) :
    l.contains a = true → a ∈ l := by
  intro h
  simpa using h

theorem pickBest_foldl_mem (l : List Project) :
    ∀ (acc : Option Project) (p : Project),
      l.foldl
        (fun best q =>
          match best with
          | none => some q
          | some b => if b.priority < q.priority then some q else some b)
        acc = some p →
      acc = some p ∨ p ∈ l := by
  induction l with
  | nil => intro acc p h; exact .inl h
  | cons x xs ih =>
    intro acc p h
    rcases ih _ p h with hacc | hmem
    · cases acc with
      | none =>
        dsimp only at hacc
        injection hacc with h'
        exact .inr (by simp [h'])
      | some b =>
        dsimp only at hacc
        by_cases hlt : b.priority < x.priority
        · rw [if_pos hlt] at hacc
          injection hacc with h'
          exact .inr (by simp [h'])
        · rw [if_neg hlt] at hacc
          exact .inl hacc
    · exact .inr (List.mem_cons.mpr (Or.inr hmem))

theorem pickBest_mem (l : List Project) (p : Project) :
    pickBest l = some p → p ∈ l := by
  intro h
  rcases pickBest_foldl_mem l none p h with h' | h'
  · cases h'
  · exact h'

theorem topoAux_error_cyclic :
    ∀ (fuel : Nat) (rem : List Project) (done : List String) (e : OptError),
      topoAux fuel rem done = .error e → e = .cyclicDependency := by
  intro fuel
  induction fuel with
  | zero =>
    intro rem done e h
    unfold topoAux at h
    by_cases hr : rem.isEmpty = true
    · rw [if_pos hr] at h; cases h
    · rw [if_neg hr] at h
      injection h with h'
      exact h'.symm
  | succ fuel ih =>
    intro rem done e h
    unfold topoAux at h
    by_cases hr : rem.isEmpty = true
    · rw [if_pos hr] at h; cases h
    · rw [if_neg hr] at h
      rcases hp : pickBest (rem.filter (eligibleProj done)) with _ | p
      · rw [hp] at h
        injection h with h'
        exact h'.symm
      · rw [hp] at h
        dsimp only at h
        rcases ht : topoAux fuel (rem.erase p) (p.name :: done) with e2 | rest
        · rw [ht] at h
          injection h with h'
          rw [← h']
          exact ih _ _ e2 ht
        · rw [ht] at h; cases h

theorem topoAux_perm :
    ∀ (fuel : Nat) (rem : List Project) (done : List String) (order : List Project),
      topoAux fuel rem done = .ok order → order.Perm rem := by
  intro fuel
  induction fuel with
  | zero =>
    intro rem done order h
    unfold topoAux at h
    by_cases hr : rem.isEmpty = true
    · rw [if_pos hr] at h
      injection h with h'
      rw [← h', List.isEmpty_iff.mp hr]
    · rw [if_neg hr] at h; cases h
  | succ fuel ih =>
    intro rem done order h
    unfold topoAux at h
    by_cases hr : rem.isEmpty = true
    · rw [if_pos hr] at h
      injection h with h'
      rw [← h', List.isEmpty_iff.mp hr]
    · rw [if_neg hr] at h
      rcases hp : pickBest (rem.filter (eligibleProj done)) with _ | p
      · rw [hp] at h; cases h
      · rw [hp] at h
        dsimp only at h
        rcases ht : topoAux fuel (rem.erase p) (p.name :: done) with e2 | rest
        · rw [ht] at h; cases h
        · rw [ht] at h
          injection h with h'
          rw [← h']
          have hpmem : p ∈ rem := List.mem_of_mem_filter (pickBest_mem _ _ hp)
          exact (List.Perm.cons p (ih _ _ _ ht)).trans (List.perm_cons_erase hpmem).symm

theorem topoAux_respects :
    ∀ (fuel : Nat) (rem : List Project) (done : List String) (order : List Project),
      topoAux fuel rem done = .ok order →
      ∀ (l₁ : List Project) (p : Project) (l₂ : List Project), order = l₁ ++ p :: l₂ →
        ∀ d ∈ p.dependencies, d ∈ done ∨ d ∈ l₁.map (·.name) := by
  intro fuel
  induction fuel with
  | zero =>
    intro rem done order h l₁ p l₂ horder d hd
    unfold topoAux at h
    by_cases hr : rem.isEmpty = true
    · rw [if_pos hr] at h
      injection h with h'
      rw [← h'] at horder
      rcases l₁ with _ | ⟨q, l₁'⟩ <;> simp at horder
    · rw [if_neg hr] at h; cases h
  | succ fuel ih =>
    intro rem done order h l₁ p l₂ horder d hd
    unfold topoAux at h
    by_cases hr : rem.isEmpty = true
    · rw [if_pos hr] at h
      injection h with h'
      rw [← h'] at horder
      rcases l₁ with _ | ⟨q, l₁'⟩ <;> simp at horder
    · rw [if_neg hr] at h
      rcases hp : pickBest (rem.filter (eligibleProj done)) with _ | p₀
      · rw [hp] at h; cases h
      · rw [hp] at h
        dsimp only at h
        rcases ht : topoAux fuel (rem.erase p₀) (p₀.name :: done) with e2 | rest
        · rw [ht] at h; cases h
        · rw [ht] at h
          injection h with h'
          cases l₁ with
          | nil =>
            rw [← h'] at horder
            simp only [List.nil_append] at horder
            injection horder with h₁ h₂
            left
            have hmem := pickBest_mem _ _ hp
            have helig := (List.mem_filter.mp hmem).2
            unfold eligibleProj at helig
            have hall := List.all_eq_true.mp helig
            rw [← h₁] at hd
            exact contains_true_mem _ _ (by simpa using hall d hd)
          | cons q l₁' =>
            rw [← h'] at horder
            simp only [List.cons_append] at horder
            injection horder with h₁ h₂
            have hrest := ih (rem.erase p₀) (p₀.name :: done) rest ht l₁' p l₂ h₂ d hd
            rcases hrest with hdone | hmap
            · rcases List.mem_cons.mp hdone with heq | hdone'
              · right
                rw [List.map_cons]
                exact List.mem_cons.mpr (Or.inl (by rw [heq, h₁]))
              · left; exact hdone'
            · right
              rw [List.map_cons]
              exact List.mem_cons.mpr (Or.inr hmap)

theorem buildOrder_of_cycle (projs : List Project)
    (hnodup : (projNames projs).Nodup)
    (hknown : ∀ p ∈ projs, ∀ d ∈ p.dependencies, d ∈ projNames projs)
    (hcyc : hasCycle projs) :
    buildOrder projs = .error .cyclicDependency := by
  unfold buildOrder
  have hany : ¬((projs.any fun p =>
      p.dependencies.any fun d => !(projNames projs).contains d) = true) := by
    intro hA
    obtain ⟨p, hp, hinner⟩ := List.any_eq_true.mp hA
    obtain ⟨d, hd, hnotc⟩ := List.any_eq_true.mp hinner
    have hmem := hknown p hp d hd
    simp at hnotc
    exact hnotc hmem
  rw [if_neg hany]
  rcases h : topoAux projs.length projs [] with e | order
  · rw [topoAux_error_cyclic _ _ _ _ h]
  · exfalso
    obtain ⟨x, hx⟩ := hcyc
    have hperm : order.Perm projs := topoAux_perm _ _ _ _ h
    have hnodup' : (order.map (·.name)).Nodup :=
      (List.Perm.nodup_iff (hperm.map _)).mpr hnodup
    have key : ∀ a b, depEdge projs a b →
        (order.map (·.name)).indexOf a < (order.map (·.name)).indexOf b := by
      rintro a b ⟨p, hpmem, hpname, hd⟩
      have hpord : p ∈ order := hperm.mem_iff.mpr hpmem
      obtain ⟨l₁, l₂, hsplit⟩ := List.append_of_mem hpord
      have hresp := topoAux_respects _ _ _ _ h l₁ p l₂ hsplit a hd
      rcases hresp with hdone | hmap
      · exact absurd hdone (List.not_mem_nil a)
      · subst hsplit
        rw [List.map_append, List.map_cons] at hnodup' ⊢
        have hbnot : p.name ∉ l₁.map (·.name) := fun hmem =>
          List.disjoint_of_nodup_append hnodup' hmem (List.mem_cons_self _ _)
        have hidxb :
            (l₁.map (·.name) ++ p.name :: l₂.map (·.name)).indexOf p.name =
              (l₁.map (·.name)).length := by
          rw [List.indexOf_append_of_not_mem hbnot, List.indexOf_cons_self]
          simp
        have hidxa :
            (l₁.map (·.name) ++ p.name :: l₂.map (·.name)).indexOf a <
              (l₁.map (·.name)).length := by
          rw [List.indexOf_append_of_mem hmap]
          exact List.indexOf_lt_length.mpr hmap
        rw [← hpname, hidxb]
        exact hidxa
    have mono : ∀ a b, Relation.TransGen (depEdge projs) a b →
        (order.map (·.name)).indexOf a < (order.map (·.name)).indexOf b := by
      intro a b hab
      induction hab with
      | single h1 => exact key _ _ h1
      | tail _ h2 ih2 => exact lt_trans ih2 (key _ _ h2)
    exact lt_irrefl _ (mono x x hx)

/-- C2: a valid request whose (well-formed: unique names, all
dependencies known) project graph contains a cycle is answered with
the 500 cyclic-dependency error and no result fields, under either
strategy and any backend behaviour. -/
theorem c2_cycle_fatal (α : Type) (tok : Option String)
    (backend : BackendOutcome) (gen : OptimizationResult → α)
    (qp : Option String) (data : Value)
    (hv : validate_input data = true)
    (hnodup : (projNames (extractInput data).projects).Nodup)
    (hknown : ∀ p ∈ (extractInput data).projects, ∀ d ∈ p.dependencies,
      d ∈ projNames (extractInput data).projects)
    (hcyc : hasCycle (extractInput data).projects) :
    optimize_route tok backend gen qp data =
      { success := false, status := 500, result := none,
        error := some (.optFailed .cyclicDependency), insights := none } := by
  have hlen := validate_lenArgsOk data hv
  have hbuild := buildOrder_of_cycle _ hnodup hknown hcyc
  have hclass : run_optimization (extractInput data) = .error .cyclicDependency := by
    unfold run_optimization
    rw [hbuild]
  have hquant : quantum_optimize backend (extractInput data) = .error .cyclicDependency := by
    unfold quantum_optimize
    rw [hbuild]
  by_cases hc : (useQuantumOf tok = true ∧ pyLower (qp.getD "true") = "true")
  · simp [optimize_route, hlen, hv, hc, hquant]
  · simp only [optimize_route, hlen, hv, Bool.not_true, Bool.false_eq_true,
      if_false, if_neg hc, hclass]

theorem c2_cycle_fatal_inst :
    optimize_route (α := Nat) sampleToken (.success []) (fun _ => 0) none cyclicData =
      { success := false, status := 500, result := none,
        error := some (.optFailed .cyclicDependency), insights := none } :=
  c2_cycle_fatal Nat sampleToken (.success []) (fun _ => 0) none cyclicData
    (by decide) (by decide) (by decide)
    ⟨"P1",
      Relation.TransGen.head (b := "P2") (by unfold depEdge; decide)
        (Relation.TransGen.single (by unfold depEdge; decide))⟩
